import Mathlib

/-!
Verification development for the bluebird-queue batch scheduler
(`src/index.js`).  The JavaScript engine is shallowly embedded:

* `JSVal` / `add` / `addNow` model the dynamic shape-checking of the
  enqueue operations (`BlueBirdQueue.prototype.add` / `addNow`).
* `WorkItem`, `QState`, `batchLoopAux`, `dequeueSync`, `onSettled` and
  `dequeueRun` model the dispatch engine `_dequeue`.  The scheduler is
  single-threaded and callback driven; under the graceful path
  (`start`, no other concurrent calls) the only pending asynchronous
  event at any moment is the in-flight batch settlement, so the whole
  run is a deterministic sequence of synchronous steps, which
  `dequeueRun` replays in order.  Wall-clock time (the `delay` applied
  after a batch settles, the `interval` of a retry timer) is recorded
  structurally, not measured.
* `drain`/`drainIter` model `BlueBirdQueue.prototype.drain`: its
  synchronous effect, the batches it puts in flight, and the number of
  `_dequeue` invocations it makes.
* `Options` / `mkConfig` / `mkEngine` / `start` model the constructor
  and `BlueBirdQueue.prototype.start`.
-/

namespace BlueBirdQueue

/-! ## JavaScript value model for `add` / `addNow` validation

`add` receives an arbitrary JavaScript value and checks, in order:
`func instanceof Array`, `typeof func === 'function'`, `'then' in func`.
The `in` operator throws a `TypeError` when its right operand is a
primitive (number, string, boolean, `null`, `undefined`). -/

/-- A JavaScript value, as far as `add`dispatches on it.  Array
elements are modelled as non-array values; `add` only performs a
shallow `concat`, so nesting never matters to it. -/
inductive JSVal where
  | jsFunc (id : Nat)
  | jsObjWithThen (id : Nat)
  | jsObjNoThen
  | jsArr (elems : List JSVal)
  | jsNum (n : Int)
  | jsStr (id : Nat)
  | jsBool (b : Bool)
  | jsNull
  | jsUndefined

/-- Errors `add` can raise synchronously: the explicit
`Error('No promises were provided')`, or the `TypeError` produced by
evaluating `'then' in func` on a primitive value. -/
inductive AddError where
  | noPromises
  | typeError
deriving DecidableEq

/-- `func instanceof Array`. -/
def isArr : JSVal → Bool
  | JSVal.jsArr _ => true
  | _ => false

/-- `typeof func === 'function'`. -/
def isFunction : JSVal → Bool
  | JSVal.jsFunc _ => true
  | _ => false

/-- Whether `'then' in func` throws (primitive operand) or evaluates,
and to what.  Functions, plain objects and arrays are objects, so the
operator evaluates on them; only the modelled thenable object has a
`then` property. -/
def hasThenIn : JSVal → Except AddError Bool
  | JSVal.jsFunc _ => Except.ok false
  | JSVal.jsObjWithThen _ => Except.ok true
  | JSVal.jsObjNoThen => Except.ok false
  | JSVal.jsArr _ => Except.ok false
  | JSVal.jsNum _ => Except.error AddError.typeError
  | JSVal.jsStr _ => Except.error AddError.typeError
  | JSVal.jsBool _ => Except.error AddError.typeError
  | JSVal.jsNull => Except.error AddError.typeError
  | JSVal.jsUndefined => Except.error AddError.typeError

/-- A value of a recognized WorkItem shape: a Factory-shaped callable
or an Awaitable-shaped thenable object. -/
def wellShaped (v : JSVal) : Bool :=
  isFunction v ||
    (match v with
     | JSVal.jsObjWithThen _ => true
     | _ => false)

/-- A primitive value (the ones on which the `in` operator throws). -/
def isPrimitive : JSVal → Bool
  | JSVal.jsNum _ => true
  | JSVal.jsStr _ => true
  | JSVal.jsBool _ => true
  | JSVal.jsNull => true
  | JSVal.jsUndefined => true
  | _ => false

/-- `BlueBirdQueue.prototype.add`.  An `Array` is concatenated onto the
queue wholesale; otherwise a function, or a value with a `then`
property, is pushed; otherwise `Error('No promises were provided')` is
thrown.  A thrown error leaves the queue unchanged (the caller keeps
the old list). -/
def add (q : List JSVal) (v : JSVal) : Except AddError (List JSVal) :=
  match v with
  | JSVal.jsArr elems => Except.ok (q ++ elems)
  | _ =>
    if isFunction v then Except.ok (q ++ [v])
    else
      match hasThenIn v with
      | Except.error e => Except.error e
      | Except.ok true => Except.ok (q ++ [v])
      | Except.ok false => Except.error AddError.noPromises

/-- `BlueBirdQueue.prototype.addNow`: `add`, then — only when the
engine is not working — an immediate dispatch attempt.  The boolean in
the result records whether `_dequeue` was invoked. -/
def addNow (working : Bool) (q : List JSVal) (v : JSVal) :
    Except AddError (List JSVal × Bool) :=
  (add q v).map (fun qNew => (qNew, !working))

/-! ## Work items and the dispatch engine -/

/-- A handle recorded in `_queueWaiting`: a one-shot timer scheduled
for `delay` milliseconds (always the configured `interval`). -/
structure Timer where
  delay : Nat
deriving DecidableEq

/-- Settlement outcomes are compared with decidable equality in the
concrete evaluation theorems below. -/
instance {E A : Type} [DecidableEq E] [DecidableEq A] : DecidableEq (Except E A) :=
  fun a b =>
    match a, b with
    | Except.ok x, Except.ok y =>
      if h : x = y then Decidable.isTrue (by rw [h])
      else Decidable.isFalse (by intro hh; cases hh; exact h rfl)
    | Except.ok _, Except.error _ => Decidable.isFalse (by intro hh; cases hh)
    | Except.error _, Except.ok _ => Decidable.isFalse (by intro hh; cases hh)
    | Except.error x, Except.error y =>
      if h : x = y then Decidable.isTrue (by rw [h])
      else Decidable.isFalse (by intro hh; cases hh; exact h rfl)

/-- A unit of work sitting in `_queue`.  A factory is invoked at
dispatch time: invoking it may itself throw synchronously (outer
`Except.error`), otherwise it yields an asynchronous value whose
eventual settlement is the inner `Except`.  An awaitable is used
as-is.  Every work item is a function or an object, hence truthy. -/
inductive WorkItem (E A : Type) where
  | factory (run : Except E (Except E A))
  | awaitable (outcome : Except E A)
deriving DecidableEq

/-- `typeof promise === 'function' ? promise() : promise`: obtain the
asynchronous value of a work item; a factory may throw synchronously. -/
def toAsync : WorkItem E A → Except E (Except E A)
  | WorkItem.factory run => run
  | WorkItem.awaitable outcome => Except.ok outcome

/-- The settlement outcome of a work item whose preparation does not
throw (for a throwing factory this returns the thrown error, but such
items are excluded by hypothesis wherever this matters). -/
def outcomeOf (w : WorkItem E A) : Except E A :=
  match toAsync w with
  | Except.ok oc => oc
  | Except.error e => Except.error e

/-- The value a work item eventually produces, when its preparation
does not throw and its asynchronous value resolves. -/
def succVal (w : WorkItem E A) : Option A :=
  match toAsync w with
  | Except.ok (Except.ok v) => some v
  | _ => none

/-- The per-instance configuration fixed at construction:
`this.concurrency`, `this.delay`, `this.interval`. -/
structure Config where
  concurrency : Nat
  delay : Nat
  interval : Nat
deriving DecidableEq

/-- The mutable state of a `BlueBirdQueue` instance: `_queue`,
`_queueWaiting`, `_processed`, `_working`. -/
structure QState (E A : Type) where
  queue : List (WorkItem E A)
  queueWaiting : List Timer
  processed : List A
  working : Bool
deriving DecidableEq

/-- The state right after construction, with `items` enqueued. -/
def initState (items : List (WorkItem E A)) : QState E A :=
  ⟨items, [], [], false⟩

/-- The batch-collection loop of `_dequeue`:

    for (var i = 0; i < self.concurrency; i++) \x7b
      if (self._queue[i]) \x7b
        var promise = self._queue.shift();
        promises.push(typeof promise === 'function' ? promise() : promise);
      \x7d
    \x7d

`fuel` counts the remaining loop iterations (initially `concurrency`)
and `i` is the loop index.  The check `self._queue[i]` reads index `i`
of the queue as mutated by the shifts so far; work items are truthy,
so the check succeeds exactly when `i < q.length`.  A factory that
throws synchronously aborts the loop with the thrown error and the
queue as shifted so far. -/
def batchLoopAux :
    Nat → Nat → List (WorkItem E A) →
      Except (E × List (WorkItem E A)) (List (Except E A) × List (WorkItem E A))
  | 0, _, q => Except.ok ([], q)
  | fuel + 1, i, q =>
    if i < q.length then
      match q with
      | [] => Except.ok ([], [])
      | w :: rest =>
        match toAsync w with
        | Except.error e => Except.error (e, rest)
        | Except.ok oc =>
          match batchLoopAux fuel (i + 1) rest with
          | Except.error p => Except.error p
          | Except.ok (b, r) => Except.ok (oc :: b, r)
    else
      batchLoopAux fuel (i + 1) q

/-- `BlueBird.all`: resolve with all results in order, or reject with
the first rejection. -/
def settleAll : List (Except E A) → Except E (List A)
  | [] => Except.ok []
  | Except.error e :: _ => Except.error e
  | Except.ok v :: rest => (settleAll rest).map (fun vs => v :: vs)

/-- The outcome of one synchronous invocation of `_dequeue`. -/
inductive SyncOut (E A : Type) where
  | retry (sNew : QState E A)
  | idle (sNew : QState E A)
  | prepError (e : E) (sNew : QState E A)
  | inFlight (outs : List (Except E A)) (sNew : QState E A)
deriving DecidableEq

/-- The synchronous part of `_dequeue`.  If `_working` is set, push a
one-shot retry timer for `interval` milliseconds onto `_queueWaiting`
and return.  Otherwise set `_working`, run the batch-collection loop;
a synchronous throw is caught by the surrounding `try` which resets
`_working` and reports the error; an empty batch resets `_working`
and returns; otherwise the batch is put in flight. -/
def dequeueSync (cfg : Config) (s : QState E A) : SyncOut E A :=
  if s.working then
    SyncOut.retry { s with queueWaiting := s.queueWaiting ++ [⟨cfg.interval⟩] }
  else
    match batchLoopAux cfg.concurrency 0 s.queue with
    | Except.error (e, rest) =>
      SyncOut.prepError e { s with working := false, queue := rest }
    | Except.ok (outs, rest) =>
      if outs.isEmpty then SyncOut.idle { s with working := false, queue := rest }
      else SyncOut.inFlight outs { s with working := true, queue := rest }

/-- Externally observable callback invocations and dispatches of a
run. -/
inductive Event (E A : Type) where
  | dispatched (size : Nat)
  | completed (results : List A)
  | errored (e : E)
deriving DecidableEq

/-- The settlement continuation of `_dequeue`, i.e. the `.spread`
callback (on resolution, after the configured `delay`) or the
`.catch(self.onError)` handler (on rejection).  Mirrors the source
order: concatenate the results onto `_processed`; call `onComplete`
when both `_queue` and `_queueWaiting` are empty; reset `_working`;
re-invoke `_dequeue` (the returned boolean) when `_queue` is non-empty
and `_queueWaiting` is empty.  On rejection only `onError` runs — in
particular `_working` is not reset there. -/
def onSettled (s : QState E A) (res : Except E (List A)) :
    QState E A × List (Event E A) × Bool :=
  match res with
  | Except.error e => (s, [Event.errored e], false)
  | Except.ok vals =>
    let processedNew := s.processed ++ vals
    let evts :=
      if s.queue.isEmpty && s.queueWaiting.isEmpty then
        [Event.completed processedNew]
      else []
    ({ s with processed := processedNew, working := false },
      evts,
      !s.queue.isEmpty && s.queueWaiting.isEmpty)

/-- A full `_dequeue`-driven run under the graceful path: one
synchronous invocation, then — if a batch went in flight — its
settlement continuation, recursing when the continuation re-invokes
`_dequeue`.  `fuel` bounds the number of dispatch cycles; any
`fuel ≥ queue.length` is enough to finish. -/
def dequeueRun (cfg : Config) : Nat → QState E A → QState E A × List (Event E A)
  | 0, s => (s, [])
  | fuel + 1, s =>
    match dequeueSync cfg s with
    | SyncOut.retry sNew => (sNew, [])
    | SyncOut.idle sNew => (sNew, [])
    | SyncOut.prepError e sNew => (sNew, [Event.errored e])
    | SyncOut.inFlight outs sNew =>
      match onSettled sNew (settleAll outs) with
      | (s2, evts, again) =>
        if again then
          match dequeueRun cfg fuel s2 with
          | (s3, evts2) => (s3, (Event.dispatched outs.length :: evts) ++ evts2)
        else (s2, Event.dispatched outs.length :: evts)

/-- The completion-callback invocations recorded in an event list. -/
def completions : List (Event E A) → List (List A)
  | [] => []
  | Event.completed rs :: evts => rs :: completions evts
  | _ :: evts => completions evts

/-- The error-callback invocations recorded in an event list. -/
def erroreds : List (Event E A) → List E
  | [] => []
  | Event.errored e :: evts => e :: erroreds evts
  | _ :: evts => erroreds evts

/-- The sizes of the batches put in flight, in dispatch order. -/
def dispatchSizes : List (Event E A) → List Nat
  | [] => []
  | Event.dispatched n :: evts => n :: dispatchSizes evts
  | _ :: evts => dispatchSizes evts

/-! ## Forced drain -/

/-- The synchronous outcome of a `drain()` call: the state after the
forced dispatch invocations, the batches put in flight by them (their
settlements happen later and race with one another), the error-callback
invocations made synchronously, and the number of `_dequeue`
invocations performed. -/
structure DrainOut (E A : Type) where
  state : QState E A
  dispatched : List (List (Except E A))
  events : List (Event E A)
  invocations : Nat
deriving DecidableEq

/-- The loop body of `drain`: `n` times, force `_working := false` and
invoke `_dequeue` (its synchronous part only). -/
def drainIter (cfg : Config) : Nat → QState E A → DrainOut E A
  | 0, s => ⟨s, [], [], 0⟩
  | n + 1, s =>
    match dequeueSync cfg { s with working := false } with
    | SyncOut.retry sNew =>
      match drainIter cfg n sNew with
      | r => ⟨r.state, r.dispatched, r.events, r.invocations + 1⟩
    | SyncOut.idle sNew =>
      match drainIter cfg n sNew with
      | r => ⟨r.state, r.dispatched, r.events, r.invocations + 1⟩
    | SyncOut.prepError e sNew =>
      match drainIter cfg n sNew with
      | r => ⟨r.state, r.dispatched, Event.errored e :: r.events, r.invocations + 1⟩
    | SyncOut.inFlight outs sNew =>
      match drainIter cfg n sNew with
      | r => ⟨r.state, outs :: r.dispatched, r.events, r.invocations + 1⟩

/-- `BlueBirdQueue.prototype.drain`.  An empty queue is a no-op.
Otherwise every outstanding retry timer is cancelled and
`_queueWaiting` is reset, `batches = floor(queueLength / concurrency)`
is computed, and `_dequeue` is invoked `batches` times (once when
`batches` is zero), with `_working` forced to `false` before each
invocation.  Within the model no synchronous exception can escape
`_dequeue` (its own `try` catches and reports them), so the `catch`
around the loop never fires. -/
def drain (cfg : Config) (s : QState E A) : DrainOut E A :=
  if s.queue.isEmpty then ⟨s, [], [], 0⟩
  else
    let s1 := { s with queueWaiting := [] }
    let batches := s1.queue.length / cfg.concurrency
    drainIter cfg (if batches = 0 then 1 else batches) s1

/-! ## Construction and `start` -/

/-- The constructor options object.  A field is `none` when absent
(`undefined` — falsy); a numeric field holding `0` is falsy too. -/
structure Options where
  concurrency : Option Nat := none
  delay : Option Nat := none
  interval : Option Nat := none

/-- The JavaScript `options.x || default` idiom on a numeric option:
absent and `0` are falsy and yield the default. -/
def jsOr (v : Option Nat) (d : Nat) : Nat :=
  match v with
  | none => d
  | some n => if n = 0 then d else n

/-- The configuration fields the `BlueBirdQueue` constructor computes:
`options.concurrency || 4`, `options.delay || 0`,
`options.interval || 5000`. -/
def mkConfig (o : Options) : Config :=
  ⟨jsOr o.concurrency 4, jsOr o.delay 0, jsOr o.interval 5000⟩

/-- The configuration of `new BlueBirdQueue()` with no options. -/
def defaultConfig : Config := mkConfig {}

/-- The identity of a completion or error callback:
the caller-supplied one, the default no-op, or the resolve/reject of
the promise returned by `start()` (identified by that promise). -/
inductive Callback where
  | supplied (id : Nat)
  | noop
  | promiseResolve (pid : Nat)
  | promiseReject (pid : Nat)
deriving DecidableEq

/-- A whole `BlueBirdQueue` instance: queue state, configuration, the
two terminal callbacks, and the number of dispatch attempts scheduled
via `process.nextTick` that have not yet run. -/
structure Engine (E A : Type) where
  qs : QState E A
  cfg : Config
  onComplete : Callback
  onError : Callback
  scheduledTicks : Nat
deriving DecidableEq

/-- `new BlueBirdQueue(options)`: configuration computed with the
`||`-default idiom, callbacks defaulted to no-ops when absent, empty
queue, no timers, no results, not working. -/
def mkEngine (o : Options) (onComplete onError : Option Callback) : Engine E A :=
  ⟨⟨[], [], [], false⟩, mkConfig o,
    onComplete.getD Callback.noop, onError.getD Callback.noop, 0⟩

/-- `BlueBirdQueue.prototype.start`.  Synchronously: schedule one
dispatch attempt via `process.nextTick` (it runs on a later
scheduling-loop turn, not within the call), construct a fresh promise
`pid`, install its resolve as `onComplete` and its reject as
`onError` (overriding whatever was configured), and return that
promise. -/
def start (eng : Engine E A) (pid : Nat) : Engine E A × Nat :=
  ({ eng with scheduledTicks := eng.scheduledTicks + 1,
              onComplete := Callback.promiseResolve pid,
              onError := Callback.promiseReject pid }, pid)

/-! ## Concrete fixtures -/

/-- Seven already-resolved awaitables producing `1..7`, the spec's
concrete scenario. -/
def items7 : List (WorkItem Nat Nat) :=
  [WorkItem.awaitable (Except.ok 1), WorkItem.awaitable (Except.ok 2),
   WorkItem.awaitable (Except.ok 3), WorkItem.awaitable (Except.ok 4),
   WorkItem.awaitable (Except.ok 5), WorkItem.awaitable (Except.ok 6),
   WorkItem.awaitable (Except.ok 7)]

/-- A single successful awaitable. -/
def items1 : List (WorkItem Nat Nat) := [WorkItem.awaitable (Except.ok 5)]

/-- A single awaitable that rejects with error `0`. -/
def itemsBad : List (WorkItem Nat Nat) := [WorkItem.awaitable (Except.error 0)]

/-! ## Helper lemmas -/

/-- The batch-collection loop on an empty queue collects nothing. -/
theorem batchLoopAux_nil {E A : Type} :
    ∀ (fuel i : Nat), batchLoopAux (E := E) (A := A) fuel i [] = Except.ok ([], []) := by
  intro fuel
  induction fuel with
  | zero => intro i; rfl
  | succ n ih => intro i; simp [batchLoopAux, ih]

/-- A batch reported in flight by `dequeueSync` always leaves the busy
flag set in the resulting state. -/
theorem dequeueSync_inFlight_working {E A : Type} (cfg : Config) (s : QState E A)
    (outs : List (Except E A)) (s₁ : QState E A)
    (h : dequeueSync cfg s = SyncOut.inFlight outs s₁) : s₁.working = true := by
  unfold dequeueSync at h
  split at h
  · simp at h
  · split at h
    · simp at h
    · split at h
      · simp at h
      · rw [SyncOut.inFlight.injEq] at h
        rw [← h.2]

/-- A synchronous preparation error reported by `dequeueSync` always
leaves the busy flag cleared in the resulting state. -/
theorem dequeueSync_prepError_working {E A : Type} (cfg : Config) (s : QState E A)
    (e : E) (s₁ : QState E A)
    (h : dequeueSync cfg s = SyncOut.prepError e s₁) : s₁.working = false := by
  unfold dequeueSync at h
  split at h
  · simp at h
  · split at h
    · rw [SyncOut.prepError.injEq] at h
      rw [← h.2]
    · split at h <;> simp at h

/-! ## Claim theorems -/

/-- C1: the claim says 7 items under the default concurrency 4 are
processed as two dispatch cycles carrying 4 then 3 items.  The code
disagrees: because the batch loop tests `self._queue[i]` against the
queue as already mutated by its own `shift()` calls, a cycle takes only
`min(concurrency, ceil(remaining/2))` items, so the run needs three
cycles carrying 4, 2 and 1 items.  The resolved results are still
`[1..7]` in order. -/
theorem c1_code_batching :
    dispatchSizes (dequeueRun defaultConfig 8 (initState items7)).2 = [4, 2, 1]
    ∧ completions (dequeueRun defaultConfig 8 (initState items7)).2 = [[1, 2, 3, 4, 5, 6, 7]]
    ∧ dispatchSizes (dequeueRun defaultConfig 8 (initState items7)).2 ≠ [4, 3] := by
  decide

/-- C2 counterexample: a batch whose combined value rejects leaves the
busy flag set — the `.catch(self.onError)` handler never resets
`_working` — refuting the claim that the engine clears the busy flag on
rejection.  The error callback does fire exactly once. -/
theorem c2_counterexample :
    (dequeueRun defaultConfig 2 (initState itemsBad)).1.working = true
    ∧ erroreds (dequeueRun defaultConfig 2 (initState itemsBad)).2 = [0]
    ∧ completions (dequeueRun defaultConfig 2 (initState itemsBad)).2 = [] := by
  decide

/-- C2 amended: on rejection of the combined batch value the engine
invokes the error callback exactly once with that failure and
dispatches no further batches from that call chain, but leaves the
busy flag set; only a synchronous exception raised while preparing the
batch clears the busy flag before the single error-callback
invocation. -/
theorem c2_amended {E A : Type} (cfg : Config) (s : QState E A) (fuel : Nat) :
    (∀ e, onSettled s (Except.error e) = (s, [Event.errored e], false))
    ∧ (∀ outs s₁ e, dequeueSync cfg s = SyncOut.inFlight outs s₁ →
        settleAll outs = Except.error e →
        dequeueRun cfg (fuel + 1) s = (s₁, [Event.dispatched outs.length, Event.errored e])
        ∧ s₁.working = true)
    ∧ (∀ e s₁, dequeueSync cfg s = SyncOut.prepError e s₁ →
        dequeueRun cfg (fuel + 1) s = (s₁, [Event.errored e]) ∧ s₁.working = false) := by
  refine ⟨fun e => rfl, ?_, ?_⟩
  · intro outs s₁ e hsync hset
    refine ⟨?_, dequeueSync_inFlight_working cfg s outs s₁ hsync⟩
    simp [dequeueRun, hsync, hset, onSettled]
  · intro e s₁ hsync
    refine ⟨?_, dequeueSync_prepError_working cfg s e s₁ hsync⟩
    simp [dequeueRun, hsync]

/-- C2 amended, witnessed at a concrete rejecting batch. -/
theorem c2_amended_witness :
    dequeueRun defaultConfig 1 (initState itemsBad)
      = (⟨[], [], [], true⟩, [Event.dispatched 1, Event.errored 0])
    ∧ (⟨[], [], [], true⟩ : QState Nat Nat).working = true := by
  exact (c2_amended defaultConfig (initState itemsBad) 0).2.1
    [Except.error 0] ⟨[], [], [], true⟩ 0 (by decide) (by decide)

/-- C3 counterexample: `add` given an `Array` containing a value of
neither recognized shape (the number 42) raises no error and appends
the invalid element — the queue is changed, refuting both the
`InvalidWorkItem` failure and the untouched-queue part of the claim
for sequence inputs. -/
theorem c3_counterexample :
    add [] (JSVal.jsArr [JSVal.jsNum 42]) = Except.ok [JSVal.jsNum 42]
    ∧ (Except.ok [JSVal.jsNum 42] : Except AddError (List JSVal))
        ≠ Except.error AddError.noPromises
    ∧ ([JSVal.jsNum 42] : List JSVal) ≠ [] := by
  exact ⟨rfl, by simp, by simp⟩

/-- C3 amended: a sequence (Array) input is appended to the queue
wholesale, with no validation of its elements; a non-sequence input
that is neither Factory-shaped nor Awaitable-shaped fails synchronously
and enqueues nothing — with the `No promises were provided` error for
non-primitive values and a `TypeError` (from evaluating `'then' in
func` on a primitive) for primitive ones — and `addNow` validates
identically since it delegates to `add`. -/
theorem c3_amended (q : List JSVal) (v : JSVal) :
    (∀ elems, add q (JSVal.jsArr elems) = Except.ok (q ++ elems))
    ∧ (isArr v = false → wellShaped v = false →
        (isPrimitive v = false →
          add q v = Except.error AddError.noPromises
          ∧ ∀ b, addNow b q v = Except.error AddError.noPromises)
        ∧ (isPrimitive v = true →
          add q v = Except.error AddError.typeError
          ∧ ∀ b, addNow b q v = Except.error AddError.typeError))
    ∧ (wellShaped v = true → add q v = Except.ok (q ++ [v])) := by
  refine ⟨fun elems => rfl, ?_, ?_⟩ <;>
    cases v <;>
      simp [add, addNow, isArr, wellShaped, isFunction, isPrimitive, hasThenIn, Except.map]

/-- C3 amended, witnessed: a shapeless object is rejected with the
`No promises were provided` error, a primitive with a `TypeError`, and
an array is appended unvalidated. -/
theorem c3_amended_witness :
    add [] JSVal.jsObjNoThen = Except.error AddError.noPromises
    ∧ add [] (JSVal.jsNum 3) = Except.error AddError.typeError
    ∧ add [] (JSVal.jsArr [JSVal.jsNum 3]) = Except.ok [JSVal.jsNum 3] := by
  refine ⟨(((c3_amended [] JSVal.jsObjNoThen).2.1 rfl rfl).1 rfl).1,
    (((c3_amended [] (JSVal.jsNum 3)).2.1 rfl rfl).2 rfl).1,
    (c3_amended [] (JSVal.jsArr [JSVal.jsNum 3])).1 [JSVal.jsNum 3]⟩

/-- C5: on successful settlement of a batch (after the configured
delay), the results are appended to `_processed` in item order, the
queue and timer list are untouched, the busy flag is cleared, the
completion callback fires exactly once with the full ordered result
log exactly when both `_queue` and `_queueWaiting` are empty, and
dispatch is re-invoked exactly when `_queue` is non-empty while
`_queueWaiting` is empty. -/
theorem c5_settlement {E A : Type} (s : QState E A) (vals : List A) :
    (onSettled s (Except.ok vals)).1.processed = s.processed ++ vals
    ∧ (onSettled s (Except.ok vals)).1.working = false
    ∧ (onSettled s (Except.ok vals)).1.queue = s.queue
    ∧ (onSettled s (Except.ok vals)).1.queueWaiting = s.queueWaiting
    ∧ ((onSettled s (Except.ok vals)).2.1 = [Event.completed (s.processed ++ vals)]
        ↔ (s.queue = [] ∧ s.queueWaiting = []))
    ∧ ((onSettled s (Except.ok vals)).2.1 = []
        ↔ ¬(s.queue = [] ∧ s.queueWaiting = []))
    ∧ ((onSettled s (Except.ok vals)).2.2 = true
        ↔ (s.queue ≠ [] ∧ s.queueWaiting = [])) := by
  refine ⟨rfl, rfl, rfl, rfl, ?_, ?_, ?_⟩ <;>
    by_cases hq : s.queue = [] <;>
      by_cases hw : s.queueWaiting = [] <;>
        simp [onSettled, hq, hw]

/-- C6: invoking `_dequeue` while the busy flag is set removes nothing
from the queue, appends nothing to the result log, invokes no
callback, and only appends one retry timer for the configured
`interval` to `_queueWaiting`. -/
theorem c6_busy {E A : Type} (cfg : Config) (s : QState E A) (fuel : Nat)
    (h : s.working = true) :
    dequeueRun cfg (fuel + 1) s
      = ({ s with queueWaiting := s.queueWaiting ++ [⟨cfg.interval⟩] }, []) := by
  simp [dequeueRun, dequeueSync, h]

/-- C6, witnessed on a busy engine with the default configuration: the
sole effect is one 5000 ms timer handle. -/
theorem c6_busy_witness :
    dequeueRun defaultConfig 1 (⟨[], [], [], true⟩ : QState Nat Nat)
      = (⟨[], [⟨5000⟩], [], true⟩, []) := by
  exact c6_busy defaultConfig ⟨[], [], [], true⟩ 0 rfl

/-- C8: `start()` returns without dispatching — the queue state is
untouched and one dispatch attempt is scheduled for a later
scheduling-loop turn — and installs the returned promise's resolve and
reject as the engine's completion and error callbacks, overriding
whatever was configured. -/
theorem c8_start {E A : Type} (eng : Engine E A) (pid : Nat) :
    (start eng pid).1.qs = eng.qs
    ∧ (start eng pid).1.cfg = eng.cfg
    ∧ (start eng pid).1.scheduledTicks = eng.scheduledTicks + 1
    ∧ (start eng pid).1.onComplete = Callback.promiseResolve pid
    ∧ (start eng pid).1.onError = Callback.promiseReject pid
    ∧ (start eng pid).2 = pid := by
  exact ⟨rfl, rfl, rfl, rfl, rfl, rfl⟩

/-- C9: every falsy numeric configuration value (absent, or zero) is
silently replaced by its default at construction — `interval: 0`
yields 5000 and `concurrency: 0` yields 4 — and a zero value is
indistinguishable from omitting the option, while non-zero values are
kept. -/
theorem c9_falsy_defaults (o : Options) (d n : Nat) :
    (jsOr none d = d ∧ jsOr (some 0) d = d)
    ∧ (o.interval = some 0 → (mkConfig o).interval = 5000)
    ∧ (o.concurrency = some 0 → (mkConfig o).concurrency = 4)
    ∧ mkConfig { o with interval := some 0 } = mkConfig { o with interval := none }
    ∧ mkConfig { o with concurrency := some 0 } = mkConfig { o with concurrency := none }
    ∧ (n ≠ 0 → jsOr (some n) d = n) := by
  refine ⟨⟨rfl, rfl⟩, ?_, ?_, ?_, ?_, ?_⟩
  · intro h; simp [mkConfig, jsOr, h]
  · intro h; simp [mkConfig, jsOr, h]
  · simp [mkConfig, jsOr]
  · simp [mkConfig, jsOr]
  · intro h; simp [jsOr, h]

/-- C9, witnessed: constructing with both zeroes yields the defaults. -/
theorem c9_falsy_defaults_witness :
    (mkConfig ⟨some 0, none, some 0⟩).interval = 5000
    ∧ (mkConfig ⟨some 0, none, some 0⟩).concurrency = 4
    ∧ jsOr (some 7) 4 = 7 := by
  refine ⟨(c9_falsy_defaults ⟨some 0, none, some 0⟩ 4 7).2.1 rfl,
    (c9_falsy_defaults ⟨some 0, none, some 0⟩ 4 7).2.2.1 rfl,
    (c9_falsy_defaults ⟨some 0, none, some 0⟩ 4 7).2.2.2.2.2 (by decide)⟩

/-- C10: dispatch on an idle engine with an empty queue clears nothing
but the busy flag (which stays false), removes nothing, invokes
neither callback, and schedules nothing — so with an empty retry-timer
list no event can ever fire, and the promise returned by `start()` on
a never-filled queue never settles. -/
theorem c10_empty_dispatch {E A : Type} (cfg : Config) (s : QState E A) (fuel : Nat)
    (hw : s.working = false) (hq : s.queue = []) (ht : s.queueWaiting = []) :
    (dequeueRun cfg (fuel + 1) s).1.working = false
    ∧ (dequeueRun cfg (fuel + 1) s).1.queue = []
    ∧ (dequeueRun cfg (fuel + 1) s).1.queueWaiting = []
    ∧ (dequeueRun cfg (fuel + 1) s).1.processed = s.processed
    ∧ (dequeueRun cfg (fuel + 1) s).2 = [] := by
  obtain ⟨q, tw, pr, wk⟩ := s
  simp only at hw hq ht
  subst hw hq ht
  simp [dequeueRun, dequeueSync, batchLoopAux_nil]

/-- C10, witnessed on a freshly constructed empty engine. -/
theorem c10_empty_dispatch_witness :
    (dequeueRun defaultConfig 1 (initState ([] : List (WorkItem Nat Nat)))).2 = []
    ∧ (dequeueRun defaultConfig 1 (initState ([] : List (WorkItem Nat Nat)))).1.queueWaiting
        = [] := by
  refine ⟨(c10_empty_dispatch defaultConfig (initState []) 0 rfl rfl rfl).2.2.2.2,
    (c10_empty_dispatch defaultConfig (initState []) 0 rfl rfl rfl).2.2.1⟩

/-! ## The graceful path: batch characterization and FIFO -/

/-- Characterization of the batch-collection loop on a queue whose
items do not throw during preparation: starting at loop index `i` with
`fuel` iterations left, it shifts exactly
`min fuel ((length - i + 1) / 2)` items off the head — the self-mutated
index check `self._queue[i]` halves the effective batch size. -/
theorem batchLoopAux_safe {E A : Type} :
    ∀ (fuel i : Nat) (q : List (WorkItem E A)),
      (∀ w ∈ q, toAsync w = Except.ok (outcomeOf w)) →
      batchLoopAux fuel i q =
        Except.ok ((q.take (min fuel ((q.length - i + 1) / 2))).map outcomeOf,
          q.drop (min fuel ((q.length - i + 1) / 2))) := by
  intro fuel
  induction fuel with
  | zero =>
    intro i q hsafe
    simp [batchLoopAux]
  | succ f ih =>
    intro i q hsafe
    by_cases hlt : i < q.length
    · rcases q with _ | ⟨w, rest⟩
      · simp at hlt
      · have hw : toAsync w = Except.ok (outcomeOf w) := hsafe w (List.mem_cons_self w rest)
        have hrec := ih (i + 1) rest (fun x hx => hsafe x (List.mem_cons_of_mem w hx))
        have hle : i ≤ rest.length := by
          simpa [Nat.lt_succ_iff] using hlt
        have hinner : (rest.length - (i + 1) + 1) / 2 = (rest.length - i) / 2 := by omega
        have houter : ((w :: rest).length - i + 1) / 2 = (rest.length - i) / 2 + 1 := by
          simp only [List.length_cons]; omega
        have hmin : min (f + 1) ((rest.length - i) / 2 + 1)
            = min f ((rest.length - i) / 2) + 1 := by omega
        simp only [batchLoopAux, if_pos hlt, hw, hrec, hinner, houter, hmin,
          List.take_succ_cons, List.drop_succ_cons, List.map_cons]
    · have hrec := ih (i + 1) q hsafe
      have hge : q.length ≤ i := Nat.le_of_not_lt hlt
      have h1 : min (f + 1) ((q.length - i + 1) / 2) = 0 := by omega
      have h2 : min f ((q.length - (i + 1) + 1) / 2) = 0 := by omega
      simp only [batchLoopAux, if_neg hlt, hrec, h1, h2]

/-- `BlueBird.all` on a list of already-resolved values resolves with
the values in order. -/
theorem settleAll_map_ok {E A : Type} :
    ∀ vs : List A, settleAll (vs.map (Except.ok : A → Except E A)) = Except.ok vs := by
  intro vs
  induction vs with
  | nil => rfl
  | cons v vs ih => simp [settleAll, ih, Except.map]

/-- A work item with a successful value neither throws at preparation
nor rejects. -/
theorem succVal_toAsync {E A : Type} (w : WorkItem E A) (v : A) (h : succVal w = some v) :
    toAsync w = Except.ok (Except.ok v) ∧ outcomeOf w = Except.ok v := by
  unfold succVal at h
  rcases ht : toAsync w with e | oc
  · rw [ht] at h; simp at h
  · rcases oc with e' | v'
    · rw [ht] at h; simp at h
    · rw [ht] at h
      simp only [Option.some.injEq] at h
      subst h
      exact ⟨rfl, by simp [outcomeOf, ht]⟩

/-- A queue of all-successful items is preparation-safe and its
outcome list is the value list, all resolved. -/
theorem map_succ_eq {E A : Type} :
    ∀ (q : List (WorkItem E A)) (vs : List A), q.map succVal = vs.map some →
      (∀ w ∈ q, toAsync w = Except.ok (outcomeOf w))
      ∧ q.map outcomeOf = vs.map Except.ok := by
  intro q
  induction q with
  | nil =>
    intro vs h
    cases vs with
    | nil => exact ⟨by simp, by simp⟩
    | cons v vs' => simp at h
  | cons w ws ih =>
    intro vs h
    cases vs with
    | nil => simp at h
    | cons v vs' =>
      simp only [List.map_cons, List.cons.injEq] at h
      obtain ⟨h1, h2⟩ := h
      obtain ⟨ha, hb⟩ := succVal_toAsync w v h1
      obtain ⟨hc, hd⟩ := ih vs' h2
      refine ⟨?_, by simp [hb, hd]⟩
      intro x hx
      rcases List.mem_cons.mp hx with rfl | hx'
      · rw [ha, hb]
      · exact hc x hx'

/-- On a non-busy engine `dequeueSync` is determined by the batch
loop. -/
theorem dequeueSync_eq_of_not_working {E A : Type} (cfg : Config) (s : QState E A)
    (h : s.working = false) :
    dequeueSync cfg s =
      match batchLoopAux cfg.concurrency 0 s.queue with
      | Except.error (e, rest) =>
        SyncOut.prepError e { s with working := false, queue := rest }
      | Except.ok (outs, rest) =>
        if outs.isEmpty then SyncOut.idle { s with working := false, queue := rest }
        else SyncOut.inFlight outs { s with working := true, queue := rest } := by
  simp [dequeueSync, h]

/-- The graceful run: starting idle with no retry timers, a non-empty
queue of all-successful items, and any accumulated results, the run
ends with the queue drained, the accumulated results extended by the
items' values in enqueue order, and exactly one completion-callback
invocation carrying the full ordered result log. -/
theorem dequeueRun_graceful {E A : Type} (cfg : Config) (hC : 1 ≤ cfg.concurrency) :
    ∀ (fuel : Nat) (q : List (WorkItem E A)) (vs acc : List A),
      q.map succVal = vs.map some → q ≠ [] → q.length ≤ fuel →
      (dequeueRun cfg fuel ⟨q, [], acc, false⟩).1 = ⟨[], [], acc ++ vs, false⟩
      ∧ completions (dequeueRun cfg fuel ⟨q, [], acc, false⟩).2 = [acc ++ vs] := by
  intro fuel
  induction fuel with
  | zero =>
    intro q vs acc hvs hne hlen
    have := List.length_pos.mpr hne
    omega
  | succ f ih =>
    intro q vs acc hvs hne hlen
    obtain ⟨hsafe, houts⟩ := map_succ_eq q vs hvs
    have hlq : 1 ≤ q.length := List.length_pos.mpr hne
    have hlenvs : q.length = vs.length := by
      simpa using congrArg List.length hvs
    have h20 : 1 ≤ (q.length + 1) / 2 := by omega
    have h21 : (q.length + 1) / 2 ≤ q.length := by omega
    obtain ⟨t, htdef⟩ : ∃ t, t = min cfg.concurrency ((q.length + 1) / 2) := ⟨_, rfl⟩
    have ht1 : 1 ≤ t := by rw [htdef]; exact le_min hC h20
    have htle : t ≤ q.length := by
      rw [htdef]; exact le_trans (min_le_right _ _) h21
    have hbatch : batchLoopAux cfg.concurrency 0 q
        = Except.ok ((q.take t).map outcomeOf, q.drop t) := by
      rw [batchLoopAux_safe cfg.concurrency 0 q hsafe, htdef]
      simp only [Nat.sub_zero]
    have houtsEq : (q.take t).map outcomeOf = (vs.take t).map Except.ok := by
      rw [List.map_take, houts, ← List.map_take]
    have htake_ne : ((q.take t).map outcomeOf).isEmpty = false := by
      rw [List.isEmpty_eq_false]
      rcases q with _ | ⟨w, rest⟩
      · exact absurd rfl hne
      · rcases t with _ | tp
        · exact absurd ht1 (by decide)
        · simp [List.take_succ_cons]
    have hsync : dequeueSync cfg ⟨q, [], acc, false⟩
        = SyncOut.inFlight ((vs.take t).map Except.ok) ⟨q.drop t, [], acc, true⟩ := by
      rw [dequeueSync_eq_of_not_working cfg _ rfl]
      show (match batchLoopAux cfg.concurrency 0 q with
        | Except.error (e, rest) =>
          SyncOut.prepError e ⟨rest, [], acc, false⟩
        | Except.ok (outs, rest) =>
          if outs.isEmpty then SyncOut.idle ⟨rest, [], acc, false⟩
          else SyncOut.inFlight outs ⟨rest, [], acc, true⟩) = _
      rw [hbatch]
      show (if ((q.take t).map outcomeOf).isEmpty
          then SyncOut.idle ⟨q.drop t, [], acc, false⟩
          else SyncOut.inFlight ((q.take t).map outcomeOf) ⟨q.drop t, [], acc, true⟩) = _
      rw [htake_ne, if_neg (by decide), houtsEq]
    have hsettle := settleAll_map_ok (E := E) (vs.take t)
    by_cases hdrop : q.drop t = []
    · have hteq : vs.take t = vs := by
        apply List.take_of_length_le
        rw [← hlenvs]
        exact List.drop_eq_nil_iff.mp hdrop
      have honset : onSettled (⟨q.drop t, [], acc, true⟩ : QState E A) (Except.ok (vs.take t))
          = (⟨[], [], acc ++ vs, false⟩, [Event.completed (acc ++ vs)], false) := by
        simp [onSettled, hdrop, hteq]
      constructor
      · simp only [dequeueRun, hsync, hsettle, honset]
        simp
      · simp only [dequeueRun, hsync, hsettle, honset]
        simp [completions]
    · have hq2 : (q.drop t).isEmpty = false := List.isEmpty_eq_false.mpr hdrop
      have honset : onSettled (⟨q.drop t, [], acc, true⟩ : QState E A) (Except.ok (vs.take t))
          = (⟨q.drop t, [], acc ++ vs.take t, false⟩, [], true) := by
        simp [onSettled, hq2]
      have hvs2 : (q.drop t).map succVal = (vs.drop t).map some := by
        rw [List.map_drop, hvs, ← List.map_drop]
      have hlen2 : (q.drop t).length ≤ f := by
        simp only [List.length_drop]
        omega
      have hih := ih (q.drop t) (vs.drop t) (acc ++ vs.take t) hvs2 hdrop hlen2
      rcases hrun : dequeueRun cfg f ⟨q.drop t, [], acc ++ vs.take t, false⟩ with ⟨s3, evts2⟩
      rw [hrun] at hih
      have hs3 : s3 = ⟨[], [], (acc ++ vs.take t) ++ vs.drop t, false⟩ := hih.1
      have hevts2 : completions evts2 = [(acc ++ vs.take t) ++ vs.drop t] := hih.2
      have happ : (acc ++ vs.take t) ++ vs.drop t = acc ++ vs := by
        rw [List.append_assoc, List.take_append_drop]
      constructor
      · simp only [dequeueRun, hsync, hsettle, honset, hrun]
        simp [hs3, happ]
      · simp only [dequeueRun, hsync, hsettle, honset, hrun]
        simp [completions, hevts2, happ]

/-- C4: under the graceful path with a non-empty queue of all-successful
items and any concurrency of at least one, the run drains the queue and
the resolved result list equals the enqueued items' values in enqueue
order, across batch boundaries, with exactly one completion-callback
invocation carrying that list. -/
theorem c4_fifo {E A : Type} (cfg : Config) (hC : 1 ≤ cfg.concurrency)
    (items : List (WorkItem E A)) (vs : List A)
    (hvs : items.map succVal = vs.map some) (hne : items ≠ [])
    (fuel : Nat) (hfuel : items.length ≤ fuel) :
    (dequeueRun cfg fuel (initState items)).1.processed = vs
    ∧ (dequeueRun cfg fuel (initState items)).1.queue = []
    ∧ completions (dequeueRun cfg fuel (initState items)).2 = [vs] := by
  obtain ⟨h1, h2⟩ := dequeueRun_graceful cfg hC fuel items vs [] hvs hne hfuel
  refine ⟨?_, ?_, ?_⟩
  · show (dequeueRun cfg fuel ⟨items, [], [], false⟩).1.processed = vs
    rw [h1]
    rfl
  · show (dequeueRun cfg fuel ⟨items, [], [], false⟩).1.queue = []
    rw [h1]
  · show completions (dequeueRun cfg fuel ⟨items, [], [], false⟩).2 = [vs]
    rw [h2]
    simp

/-- C4, witnessed on the spec's concrete scenario: items producing
`1..7` under the default concurrency resolve to `[1,2,3,4,5,6,7]`. -/
theorem c4_fifo_witness :
    (dequeueRun defaultConfig 7 (initState items7)).1.processed = [1, 2, 3, 4, 5, 6, 7]
    ∧ completions (dequeueRun defaultConfig 7 (initState items7)).2
        = [[1, 2, 3, 4, 5, 6, 7]] := by
  have h := c4_fifo defaultConfig (by decide) items7 [1, 2, 3, 4, 5, 6, 7]
    (by decide) (by decide) 7 (by decide)
  exact ⟨h.1, h.2.2⟩

/-! ## Drain lemmas -/

/-- Each of the `n` iterations of the forced-drain loop performs
exactly one `_dequeue` invocation. -/
theorem drainIter_invocations {E A : Type} (cfg : Config) :
    ∀ (n : Nat) (s : QState E A), (drainIter cfg n s).invocations = n := by
  intro n
  induction n with
  | zero => intro s; rfl
  | succ k ih =>
    intro s
    simp only [drainIter]
    cases h : dequeueSync cfg { s with working := false } <;> simp [h, ih]

/-- `dequeueSync` never reaches the retry branch from a non-busy state
and never touches `_queueWaiting` there. -/
theorem dequeueSync_not_working_waiting {E A : Type} (cfg : Config) (s : QState E A)
    (h : s.working = false) :
    (∀ sNew, dequeueSync cfg s ≠ SyncOut.retry sNew)
    ∧ (∀ sNew, dequeueSync cfg s = SyncOut.idle sNew → sNew.queueWaiting = s.queueWaiting)
    ∧ (∀ e sNew, dequeueSync cfg s = SyncOut.prepError e sNew →
        sNew.queueWaiting = s.queueWaiting)
    ∧ (∀ outs sNew, dequeueSync cfg s = SyncOut.inFlight outs sNew →
        sNew.queueWaiting = s.queueWaiting) := by
  have heq := dequeueSync_eq_of_not_working cfg s h
  rcases hb : batchLoopAux cfg.concurrency 0 s.queue with ⟨e1, rest⟩ | ⟨outs1, rest⟩
  · simp only [hb] at heq
    refine ⟨fun sNew hc => ?_, fun sNew hc => ?_, fun e2 sNew hc => ?_,
      fun outs2 sNew hc => ?_⟩ <;> rw [heq] at hc <;> cases hc <;> rfl
  · by_cases he : outs1.isEmpty
    · simp only [hb, he, if_true] at heq
      refine ⟨fun sNew hc => ?_, fun sNew hc => ?_, fun e2 sNew hc => ?_,
        fun outs2 sNew hc => ?_⟩ <;> rw [heq] at hc <;> cases hc <;> rfl
    · have he2 : outs1.isEmpty = false := by
        cases hbe : outs1.isEmpty
        · rfl
        · exact absurd hbe he
      simp only [hb, he2, if_false] at heq
      refine ⟨fun sNew hc => ?_, fun sNew hc => ?_, fun e2 sNew hc => ?_,
        fun outs2 sNew hc => ?_⟩ <;> rw [heq] at hc <;> cases hc <;> rfl

/-- The forced-drain loop never schedules retry timers: it preserves
`_queueWaiting`. -/
theorem drainIter_waiting {E A : Type} (cfg : Config) :
    ∀ (n : Nat) (s : QState E A),
      (drainIter cfg n s).state.queueWaiting = s.queueWaiting := by
  intro n
  induction n with
  | zero => intro s; rfl
  | succ k ih =>
    intro s
    obtain ⟨hretry, hidle, hprep, hflight⟩ :=
      dequeueSync_not_working_waiting cfg { s with working := false } rfl
    simp only [drainIter]
    cases h : dequeueSync cfg { s with working := false } with
    | retry sNew => exact absurd h (hretry sNew)
    | idle sNew =>
      simp only []
      rw [ih sNew, hidle sNew h]
    | prepError e sNew =>
      simp only []
      rw [ih sNew, hprep e sNew h]
    | inFlight outs sNew =>
      simp only []
      rw [ih sNew, hflight outs sNew h]

/-- Every event the forced-drain loop emits is an error-callback
invocation (produced by the `try`/`catch` inside `_dequeue`). -/
theorem drainIter_events_errored {E A : Type} (cfg : Config) :
    ∀ (n : Nat) (s : QState E A) (ev : Event E A),
      ev ∈ (drainIter cfg n s).events → ∃ e, ev = Event.errored e := by
  intro n
  induction n with
  | zero => intro s ev hev; simp [drainIter] at hev
  | succ k ih =>
    intro s ev hev
    simp only [drainIter] at hev
    cases h : dequeueSync cfg { s with working := false } with
    | retry sNew => rw [h] at hev; exact ih sNew ev hev
    | idle sNew => rw [h] at hev; exact ih sNew ev hev
    | prepError e sNew =>
      rw [h] at hev
      rcases List.mem_cons.mp hev with rfl | hev'
      · exact ⟨e, rfl⟩
      · exact ih sNew ev hev'
    | inFlight outs sNew => rw [h] at hev; exact ih sNew ev hev

/-- C7: `drain()` on an empty queue is a no-op; otherwise it first
cancels every outstanding retry timer and clears `_queueWaiting`, then
invokes the dispatch algorithm `floor(queueLength / concurrency)`
times (exactly once when that quotient is zero), forcing the busy flag
to `false` before each invocation — hence it never schedules a retry
timer and ends with `_queueWaiting` empty — and every event it emits
is an error-callback invocation (the synchronous-exception route). -/
theorem c7_drain {E A : Type} (cfg : Config) (s : QState E A) :
    (s.queue = [] → drain cfg s = ⟨s, [], [], 0⟩)
    ∧ (s.queue ≠ [] →
        (drain cfg s).invocations
          = (if s.queue.length / cfg.concurrency = 0 then 1
             else s.queue.length / cfg.concurrency)
        ∧ drain cfg s
            = drainIter cfg
                (if s.queue.length / cfg.concurrency = 0 then 1
                 else s.queue.length / cfg.concurrency)
                { s with queueWaiting := [] }
        ∧ (drain cfg s).state.queueWaiting = []
        ∧ (∀ ev ∈ (drain cfg s).events, ∃ e, ev = Event.errored e)) := by
  constructor
  · intro hq
    simp [drain, hq]
  · intro hq
    have hne : s.queue.isEmpty = false := List.isEmpty_eq_false.mpr hq
    have hdrain : drain cfg s
        = drainIter cfg
            (if s.queue.length / cfg.concurrency = 0 then 1
             else s.queue.length / cfg.concurrency)
            { s with queueWaiting := [] } := by
      simp [drain, hne]
    refine ⟨?_, hdrain, ?_, ?_⟩
    · rw [hdrain, drainIter_invocations]
    · rw [hdrain, drainIter_waiting]
    · rw [hdrain]
      exact drainIter_events_errored cfg _ _

/-- C7, witnessed: draining seven pending items under the default
concurrency makes exactly one forced invocation (`floor(7/4) = 1`),
dispatches one batch, and ends with no retry timers. -/
theorem c7_drain_witness :
    (drain defaultConfig (initState items7)).invocations = 1
    ∧ (drain defaultConfig (initState items7)).state.queueWaiting = []
    ∧ (drain defaultConfig (initState ([] : List (WorkItem Nat Nat)))).invocations = 0 := by
  have h := (c7_drain defaultConfig (initState items7)).2 (by decide)
  refine ⟨?_, h.2.2.1, ?_⟩
  · rw [h.1]; decide
  · rw [(c7_drain defaultConfig (initState [])).1 rfl]
